import Mathlib

/-!
Verification of the SQL validation / preview / transaction pipeline of the
Text-to-SQL workspace backend.

The Python sources embedded here:
  - backend/app/core/security.py        (SQLSecurityValidator)
  - backend/app/db/query_validator.py   (QueryValidator)
  - backend/app/db/transaction_manager.py (TransactionManager)
  - backend/app/db/query_executor.py    (QueryExecutor)
  - backend/app/services/diff_service.py (DiffService)

Strings are modelled as `List Char`; the Python regular expressions used by
the code are compiled by hand into explicit scanning functions whose
semantics follow CPython's `re` module (leftmost match, lazy `.*?`,
`\b` word boundaries, `\s` whitespace, IGNORECASE via ASCII lowercasing,
`.` not matching a newline unless DOTALL is set).  Word characters and
whitespace are modelled at ASCII precision.
-/

namespace TextToSql

/-- Python `\s` whitespace class (ASCII part): space, TAB, LF, VT, FF, CR. -/
def pyIsSpace (c : Char) : Bool :=
  c.toNat == 32 || c.toNat == 9 || c.toNat == 10 || c.toNat == 11 ||
  c.toNat == 12 || c.toNat == 13

/-- Python `\w` word-character class (ASCII part): letters, digits,
underscore. -/
def isWordChar (c : Char) : Bool :=
  (97 ≤ c.toNat && c.toNat ≤ 122) || (65 ≤ c.toNat && c.toNat ≤ 90) ||
  (48 ≤ c.toNat && c.toNat ≤ 57) || c.toNat == 95

/-- Case-insensitive prefix test: `pat` (given in lowercase) is a prefix of `s`
up to ASCII lowercasing.  Models matching a literal under `re.IGNORECASE`. -/
def startsWithCI : List Char → List Char → Bool
  | [], _ => true
  | _ :: _, [] => false
  | p :: ps, c :: cs => p == c.toLower && startsWithCI ps cs

/-- Case-sensitive prefix test. -/
def startsWithL : List Char → List Char → Bool
  | [], _ => true
  | _ :: _, [] => false
  | p :: ps, c :: cs => p == c && startsWithL ps cs

/-- Case-sensitive substring containment (Python `in`). -/
def hasSubstr (pat : List Char) : List Char → Bool
  | [] => pat.isEmpty
  | c :: cs => startsWithL pat (c :: cs) || hasSubstr pat cs

/-- A `\b` word boundary holds after a match ending here. -/
def boundaryAfterAt (s : List Char) : Bool :=
  match s with
  | [] => true
  | c :: _ => !(isWordChar c)

/-- A `\b` word boundary holds before a match starting after `prev`
(`none` = start of the string). -/
def boundaryPrev (p : Option Char) : Bool :=
  match p with
  | none => true
  | some c => !(isWordChar c)

/-- Scan for `\b<pat>\b` (pattern all word characters, lowercase),
tracking the previous character for the left boundary. -/
def wordOccursAux (pat : List Char) : Option Char → List Char → Bool
  | _, [] => false
  | prev, c :: cs =>
    (boundaryPrev prev && startsWithCI pat (c :: cs) &&
      boundaryAfterAt ((c :: cs).drop pat.length)) ||
    wordOccursAux pat (some c) cs

/-- `re.search(r"\b<pat>\b", s, re.IGNORECASE) != None` for a pattern made of
word characters. -/
def wordOccurs (pat s : List Char) : Bool := wordOccursAux pat none s

def selKw : List Char := ['s', 'e', 'l', 'e', 'c', 't']
def insKw : List Char := ['i', 'n', 's', 'e', 'r', 't']
def updKw : List Char := ['u', 'p', 'd', 'a', 't', 'e']
def delKw : List Char := ['d', 'e', 'l', 'e', 't', 'e']
def altKw : List Char := ['a', 'l', 't', 'e', 'r']
def dropKw : List Char := ['d', 'r', 'o', 'p']
def databaseKw : List Char := ['d', 'a', 't', 'a', 'b', 'a', 's', 'e']
def truncKw : List Char := ['t', 'r', 'u', 'n', 'c', 'a', 't', 'e']
def whereKw : List Char := ['w', 'h', 'e', 'r', 'e']
def limitKw : List Char := ['l', 'i', 'm', 'i', 't']
def unionKw : List Char := ['u', 'n', 'i', 'o', 'n']
def intersectKw : List Char := ['i', 'n', 't', 'e', 'r', 's', 'e', 'c', 't']
def exceptKw : List Char := ['e', 'x', 'c', 'e', 'p', 't']

/-- Case-insensitive substring containment (used to state side conditions). -/
def containsCI (pat : List Char) : List Char → Bool
  | [] => pat.isEmpty
  | c :: cs => startsWithCI pat (c :: cs) || containsCI pat cs

/-- `\bdrop\s+database\b` matches at the head of `s` (left boundary checked
by the caller). -/
def dropDbAt (s : List Char) : Bool :=
  startsWithCI dropKw s &&
    (let r := s.drop 4
     !((r.takeWhile pyIsSpace).isEmpty) &&
       startsWithCI databaseKw (r.dropWhile pyIsSpace) &&
       boundaryAfterAt ((r.dropWhile pyIsSpace).drop 8))

def dropDbOccursAux : Option Char → List Char → Bool
  | _, [] => false
  | prev, c :: cs => (boundaryPrev prev && dropDbAt (c :: cs)) || dropDbOccursAux (some c) cs

/-- `re.search(r"\bdrop\s+database\b", s, re.IGNORECASE) != None`. -/
def dropDbOccurs (s : List Char) : Bool := dropDbOccursAux none s

/-- One of the statement keywords of the batching guard starts here
(the guard's alternatives carry no word boundaries). -/
def batchKwAt (s : List Char) : Bool :=
  startsWithCI selKw s || startsWithCI insKw s || startsWithCI updKw s ||
  startsWithCI delKw s || startsWithCI dropKw s || startsWithCI altKw s ||
  startsWithCI truncKw s

/-- Scan for `;.*?(?:select|insert|update|delete|drop|alter|truncate)` without
DOTALL: a semicolon followed, on the same line, by one of the keywords.
`seen` records whether a semicolon occurred earlier on the current line. -/
def batchAux : Bool → List Char → Bool
  | _, [] => false
  | seen, c :: cs =>
    if c == '\n' then batchAux false cs
    else (seen && batchKwAt (c :: cs)) || batchAux (seen || c == ';') cs

/-- `re.search(r";.*?(?:select|...|truncate)", s, re.IGNORECASE) != None`. -/
def batchOccurs (s : List Char) : Bool := batchAux false s

/-- `re.search(r"^\s*<kw>\b", s, re.IGNORECASE) != None` (no MULTILINE: the
anchor is the start of the whole string). -/
def startsKwP (kw : List Char) (s : List Char) : Bool :=
  startsWithCI kw (s.dropWhile pyIsSpace) &&
    boundaryAfterAt ((s.dropWhile pyIsSpace).drop kw.length)

/-- Scanner for `re.sub(r"--.*?$", "", s, flags=re.MULTILINE)`.  The flag
records whether we are inside a line comment (dropping characters up to, but
not including, the next newline). -/
def slcAux : Bool → List Char → List Char
  | _, [] => []
  | true, c :: t => if c == '\n' then c :: slcAux false t else slcAux true t
  | false, c :: t =>
    if c == '-' && t.head? == some '-' then slcAux true t
    else c :: slcAux false t

/-- `re.sub(r"--.*?$", "", s, flags=re.MULTILINE)`: delete from each `--` to
the end of its line, keeping the newline. -/
def stripLineComments (l : List Char) : List Char := slcAux false l

/-- Does the remainder contain a `*/` closer? -/
def hasClose : List Char → Bool
  | [] => false
  | c :: t => (c == '*' && t.head? == some '/') || hasClose t

/-- The suffix after the first `*/`. -/
def afterClose : List Char → List Char
  | [] => []
  | c :: t => if c == '*' && t.head? == some '/' then t.tail else afterClose t

/-- Fuelled scanner for `re.sub(r"/\*.*?\*/", "", s, flags=re.DOTALL)`.  The
fuel (initially the length of the text) makes the recursion structural; it
never runs out because each step strictly shrinks the text. -/
def sbcFuel : Nat → List Char → List Char
  | 0, l => l
  | _ + 1, [] => []
  | f + 1, c :: t =>
    if c == '/' && t.head? == some '*' then
      if hasClose t.tail then sbcFuel f (afterClose t.tail) else c :: t
    else c :: sbcFuel f t

/-- `re.sub(r"/\*.*?\*/", "", s, flags=re.DOTALL)`: delete each lazily-closed
block comment; an unclosed `/*` is kept verbatim (no later match can exist,
since any closer after a later opener would also close this one). -/
def stripBlockComments (l : List Char) : List Char := sbcFuel l.length l

/-- Comment stripping as performed at the top of every validator entry point:
line comments first, then block comments. -/
def stripComments (l : List Char) : List Char :=
  stripBlockComments (stripLineComments l)

/-! ## SQLSecurityValidator (backend/app/core/security.py) -/

def msgDropDb : String := "DROP DATABASE is not allowed"
def msgTruncate : String := "TRUNCATE is not allowed"
def msgMulti : String := "Multiple statements not allowed"
def msgDeleteWhere : String := "DELETE statements must include a WHERE clause"
def msgNoType : String := "Could not determine query type"

/-- `SQLSecurityValidator.validate_query`: strip comments, then scan the
`DANGEROUS_PATTERNS` denylist in order. -/
def validate_query (q : String) : Bool × Option String :=
  let c := stripComments q.data
  if dropDbOccurs c then (false, some msgDropDb)
  else if wordOccurs truncKw c then (false, some msgTruncate)
  else if batchOccurs c then (false, some msgMulti)
  else (true, none)

/-- `SQLSecurityValidator.require_where_for_delete`. -/
def require_where_for_delete (q : String) : Bool × Option String :=
  let c := stripComments q.data
  if startsKwP delKw c && !(wordOccurs whereKw c) then (false, some msgDeleteWhere)
  else (true, none)

/-- `SQLSecurityValidator.get_query_type`: first matching entry of the ordered
`QUERY_PATTERNS` dict. -/
def get_query_type (q : String) : Option String :=
  let c := stripComments q.data
  if startsKwP selKw c then some ("SELECT")
  else if startsKwP insKw c then some ("INSERT")
  else if startsKwP updKw c then some ("UPDATE")
  else if startsKwP delKw c then some ("DELETE")
  else if startsKwP altKw c then some ("ALTER")
  else none

/-- `str.rstrip(';')`: remove trailing semicolons (only). -/
def rstripSemis (l : List Char) : List Char :=
  (l.reverse.dropWhile (fun c => c == ';')).reverse

/-- `SQLSecurityValidator.inject_limit_to_select`.  All checks run on the
comment-stripped text, but the returned text is built from the original. -/
def inject_limit_to_select (q : String) (limit : Nat) : String :=
  let c := stripComments q.data
  if startsKwP selKw c then
    if !(wordOccurs limitKw c) then
      if wordOccurs unionKw c || wordOccurs intersectKw c || wordOccurs exceptKw c then
        String.mk ('(' :: q.data ++ (") LIMIT ".data ++ (Nat.repr limit).data))
      else
        String.mk (rstripSemis q.data ++ (" LIMIT ".data ++ (Nat.repr limit).data))
    else q
  else q

/-! ## QueryValidator (backend/app/db/query_validator.py) -/

/-- `QueryValidator.validate_generated_query`: dangerous-pattern scan, then the
DELETE/WHERE rule, then kind classification.  For a SELECT the code also
computes `inject_limit_to_select(query)` into a local variable, but that
rewritten text is dropped: only `(is_valid, error_message, query_type)` is
returned. -/
def validate_generated_query (q : String) : Bool × Option String × Option String :=
  match validate_query q with
  | (false, e) => (false, e, none)
  | (true, _) =>
    match require_where_for_delete q with
    | (false, e) => (false, e, none)
    | (true, _) =>
      match get_query_type q with
      | none => (false, some msgNoType, none)
      | some t => (true, none, some t)

/-! ## TransactionManager.convert_update_to_select / convert_delete_to_select
(backend/app/db/transaction_manager.py)

`convert_update_to_select` anchors
`re.match(r"UPDATE\s+([^\s]+).*?WHERE\s+(.+?)(?:;)?$", q, IGNORECASE|DOTALL)`.
The backtracking outcome is computed explicitly: group 1 is tried from the
longest non-whitespace token downwards; for each candidate, the lazy `.*?`
selects the earliest `WHERE` occurrence whose tail can match
`\s+(.+?)(?:;)?$` (`$` = end of string or just before a final newline). -/

def fromKw : List Char := "from".data
def setKw : List Char := "set".data

/-- Python `str.strip()`: trim whitespace from both ends. -/
def pyStrip (l : List Char) : List Char :=
  ((l.dropWhile pyIsSpace).reverse.dropWhile pyIsSpace).reverse

/-- The text captured by the lazy `(.+?)` of `WHERE\s+(.+?)(?:;)?$` when the
text after the whitespace run is the nonempty suffix `S` (running to the end
of the whole string): the shortest nonempty prefix of `S` that leaves only an
optional `;` before `$`. -/
def group2Of (S : List Char) : List Char :=
  match S.reverse with
  | '\n' :: ';' :: c :: rest => (c :: rest).reverse
  | '\n' :: ';' :: [] => [';']
  | '\n' :: c :: rest => (c :: rest).reverse
  | '\n' :: [] => ['\n']
  | ';' :: c :: rest => (c :: rest).reverse
  | ';' :: [] => [';']
  | _ => S

/-- Try to match `\s+(.+?)(?:;)?$` against `T` (the text right after a
`WHERE` literal, running to the end of the string); return the text captured
by `(.+?)`.  When everything after the whitespace run is empty, the greedy
`\s+` gives one character back to `(.+?)` if it can. -/
def matchTail (T : List Char) : Option (List Char) :=
  let W := T.takeWhile pyIsSpace
  let S := T.dropWhile pyIsSpace
  if W.isEmpty then none
  else if !(S.isEmpty) then some (group2Of S)
  else
    match W.getLast? with
    | some c => if 2 ≤ W.length then some [c] else none
    | none => none

/-- Earliest `WHERE` occurrence (case-insensitive, lazy `.*?` with DOTALL)
whose tail matches; returns the `(.+?)` capture. -/
def findWhereTail : List Char → Option (List Char)
  | [] => none
  | c :: cs =>
    if startsWithCI whereKw (c :: cs) then
      match matchTail ((c :: cs).drop 5) with
      | some g2 => some g2
      | none => findWhereTail cs
    else findWhereTail cs

/-- Backtracking over the length of group 1 (`[^\s]+` is greedy, so the full
token is tried first, then shorter prefixes). -/
def tryG1 (tok rest3 : List Char) : Nat → Option (List Char × List Char)
  | 0 => none
  | l + 1 =>
    match findWhereTail (tok.drop (l + 1) ++ rest3) with
    | some g2 => some (tok.take (l + 1), g2)
    | none => tryG1 tok rest3 l

/-- The anchored match `re.match(r"UPDATE\s+([^\s]+).*?WHERE\s+(.+?)(?:;)?$")`,
returning the two captures.  `cs.drop 6` is the text after the `UPDATE`
literal; `\s+` must be nonempty; group 1 starts from the maximal
non-whitespace token after it. -/
def updMatch (cs : List Char) : Option (List Char × List Char) :=
  if startsWithCI updKw cs then
    if ((cs.drop 6).takeWhile pyIsSpace).isEmpty ||
        (((cs.drop 6).dropWhile pyIsSpace).takeWhile (fun c => !(pyIsSpace c))).isEmpty then
      none
    else
      tryG1 (((cs.drop 6).dropWhile pyIsSpace).takeWhile (fun c => !(pyIsSpace c)))
        (((cs.drop 6).dropWhile pyIsSpace).dropWhile (fun c => !(pyIsSpace c)))
        (((cs.drop 6).dropWhile pyIsSpace).takeWhile (fun c => !(pyIsSpace c))).length
  else none

/-- `re.sub(r"^UPDATE\b", "SELECT *", q, IGNORECASE)` (anchored: at most one
replacement, at the very start). -/
def subUpdateOnce (cs : List Char) : List Char :=
  if startsWithCI updKw cs && boundaryAfterAt (cs.drop 6) then "SELECT *".data ++ cs.drop 6
  else cs

/-- Scan for the earliest `WHERE` preceded by a whitespace character, as the
end of a `SET\s+.*?\s+WHERE` match; `prev` is the previous character. -/
def findSetTail : Char → List Char → Option (List Char)
  | _, [] => none
  | prev, c :: cs =>
    if pyIsSpace prev && startsWithCI whereKw (c :: cs) then some ((c :: cs).drop 5)
    else findSetTail c cs

/-- Does `SET\s+.*?\s+WHERE` (DOTALL) match starting exactly here?  If so,
return the suffix after the match.  The two `\s+` groups need two distinct
whitespace positions, so the `WHERE` can start no earlier than offset 5. -/
def matchSetAt (s : List Char) : Option (List Char) :=
  if startsWithCI setKw s then
    match s.drop 3 with
    | c3 :: c4 :: rest5 => if pyIsSpace c3 then findSetTail c4 rest5 else none
    | _ => none
  else none

/-- Fuelled scanner for `re.sub(r"SET\s+.*?\s+WHERE", " WHERE", s,
IGNORECASE|DOTALL)`: leftmost-shortest, non-overlapping, scanning resumes
after each match.  `matchSetAt_length` shows the fuel never runs out. -/
def subSetWhereFuel : Nat → List Char → List Char
  | 0, l => l
  | _ + 1, [] => []
  | f + 1, c :: cs =>
    match matchSetAt (c :: cs) with
    | some r => " WHERE".data ++ subSetWhereFuel f r
    | none => c :: subSetWhereFuel f cs

def subSetWhere (l : List Char) : List Char := subSetWhereFuel l.length l

/-- `TransactionManager.convert_update_to_select`. -/
def convert_update_to_select (q : String) : String :=
  match updMatch q.data with
  | some (tbl, g2) =>
    String.mk ("SELECT * FROM ".data ++ pyStrip tbl ++ (" WHERE ".data ++ pyStrip g2))
  | none => String.mk (subSetWhere (subUpdateOnce q.data))

/-- `TransactionManager.convert_delete_to_select`:
`re.sub(r"^DELETE\s+FROM\b", "SELECT * FROM", q, IGNORECASE)`. -/
def convert_delete_to_select (q : String) : String :=
  if startsWithCI delKw q.data then
    let r := q.data.drop 6
    let r2 := r.dropWhile pyIsSpace
    if !((r.takeWhile pyIsSpace).isEmpty) && startsWithCI fromKw r2 &&
        boundaryAfterAt (r2.drop 4) then
      String.mk ("SELECT * FROM".data ++ r2.drop 4)
    else q
  else q

/-! ## Execution layer (backend/app/db/transaction_manager.py and
query_executor.py)

The database session is modelled as an oracle prescribing the outcome of
each `session.execute` and `session.commit` call of one invocation;
`session.rollback` is modelled as always succeeding.  Each embedded function
also returns the list of session events it performed, in call order, so that
commit/rollback discipline can be stated as a trace property. -/

/-- A database row (`dict(row._mapping)`). -/
abbrev DBRow := List (String × String)

/-- Outcome of one `session.execute(text(q))` call: either the call raises,
or it returns a result object on which `fetchall()` either raises or returns
rows, and which reports a `rowcount`. -/
inductive ExecOutcome where
  | raises (msg : String)
  | result (fetch : Except String (List DBRow)) (rowcount : Nat)

/-- The session oracle: `exec i` / `commit i` prescribe the outcome of the
i-th `execute` / `commit` call of the invocation (`some msg` = the commit
raises with message `msg`). -/
structure Session where
  exec : Nat → ExecOutcome
  commit : Nat → Option String

/-- Observable session events. -/
inductive Ev where
  | execOk
  | execFail
  | fetchOk
  | fetchFail
  | commitOk
  | commitFail
  | rollback
deriving DecidableEq

/-- Result payload of `execute_with_transaction`: a row list, an affected-row
count, or Python `None`. -/
inductive TxValue where
  | rows (l : List DBRow)
  | count (n : Nat)
  | noneV
deriving DecidableEq

/-- `TransactionManager.execute_with_transaction`.  The nested `try` around
`fetchall` is faithful to the source: an exception raised by the FIRST
`commit` (inside the inner `try`) is caught by the inner `except`, which then
reads `rowcount` and calls `commit` a SECOND time; only an exception escaping
the inner handler reaches the outer `except`, which rolls back. -/
def execute_with_transaction (s : Session) (q : String) :
    (Bool × TxValue × Option String) × List Ev :=
  let _ := q
  match s.exec 0 with
  | .raises m => ((false, .noneV, some m), [.execFail, .rollback])
  | .result fetch rc =>
    match fetch with
    | .ok rows =>
      match s.commit 0 with
      | none => ((true, .rows rows, none), [.execOk, .fetchOk, .commitOk])
      | some _ =>
        match s.commit 1 with
        | none => ((true, .count rc, none), [.execOk, .fetchOk, .commitFail, .commitOk])
        | some m2 =>
          ((false, .noneV, some m2), [.execOk, .fetchOk, .commitFail, .commitFail, .rollback])
    | .error _ =>
      match s.commit 0 with
      | none => ((true, .count rc, none), [.execOk, .fetchFail, .commitOk])
      | some m1 => ((false, .noneV, some m1), [.execOk, .fetchFail, .commitFail, .rollback])

/-- `TransactionManager.execute_read_only`. -/
def execute_read_only (s : Session) (q : String) :
    (Bool × Option (List DBRow) × Option String) × List Ev :=
  let _ := q
  match s.exec 0 with
  | .raises m => ((false, none, some m), [.execFail])
  | .result fetch _ =>
    match fetch with
    | .ok rows => ((true, some rows, none), [.execOk, .fetchOk])
    | .error m => ((false, none, some m), [.execOk, .fetchFail])

/-- `TransactionManager.execute_preview_query`: execute and fetch, reporting
the row count as the affected-row estimate; no commit, no rollback. -/
def execute_preview_query (s : Session) (q : String) :
    (Bool × Nat × Option String) × List Ev :=
  let _ := q
  match s.exec 0 with
  | .raises m => ((false, 0, some m), [.execFail])
  | .result fetch _ =>
    match fetch with
    | .ok rows => ((true, rows.length, none), [.execOk, .fetchOk])
    | .error m => ((false, 0, some m), [.execOk, .fetchFail])

/-- `QueryValidator.validate_preview_query`: just the dangerous-pattern
scan. -/
def validate_preview_query (q : String) : Bool × Option String :=
  validate_query q

/-- Result shape of `QueryExecutor.preview_query` (keys absent from a branch
of the Python dict are modelled as `none` / `[]` / `0`). -/
structure PreviewRes where
  success : Bool
  query_type : Option String
  preview_rows : List DBRow
  affected_rows : Nat
  error : Option String
deriving DecidableEq

/-- `QueryExecutor.preview_query`: dangerous-pattern validation, then
classification via `validate_generated_query(query)[2]`, UPDATE/DELETE
conversion to SELECT, `execute_preview_query`, and on success a second
execute+fetch of the same preview text for the sample rows (capped at
100). -/
def preview_query (s : Session) (q : String) : PreviewRes × List Ev :=
  match validate_preview_query q with
  | (false, e) => (⟨false, none, [], 0, e⟩, [])
  | (true, _) =>
    let qt := (validate_generated_query q).2.2
    let pq := if qt == some ("UPDATE") then convert_update_to_select q
              else if qt == some ("DELETE") then convert_delete_to_select q
              else q
    match execute_preview_query s pq with
    | ((true, affected, _), tr1) =>
      match s.exec 1 with
      | .raises m2 => (⟨false, qt, [], 0, some m2⟩, tr1 ++ [.execFail])
      | .result fetch2 _ =>
        match fetch2 with
        | .ok rows2 => (⟨true, qt, rows2.take 100, affected, none⟩, tr1 ++ [.execOk, .fetchOk])
        | .error m2 => (⟨false, qt, [], 0, some m2⟩, tr1 ++ [.execOk, .fetchFail])
    | ((false, _, e), tr1) => (⟨false, qt, [], 0, e⟩, tr1)

/-- Result shape of `QueryExecutor.execute_query`. -/
structure ExecRes where
  success : Bool
  query_type : Option String
  data : Option (List DBRow)
  rows_returned : Nat
  affected_rows : Nat
  error : Option String
deriving DecidableEq

/-- `QueryExecutor.execute_query`: validate, then dispatch the original text
to the read-only path (SELECT) or the transactional write path. -/
def execute_query (s : Session) (q : String) : ExecRes × List Ev :=
  match validate_generated_query q with
  | (false, e, _) => (⟨false, none, none, 0, 0, e⟩, [])
  | (true, _, qt) =>
    if qt == some ("SELECT") then
      match execute_read_only s q with
      | ((true, rowsOpt, _), tr) =>
        (⟨true, qt, some (rowsOpt.getD []), (rowsOpt.getD []).length, 0, none⟩, tr)
      | ((false, _, e), tr) => (⟨false, qt, none, 0, 0, e⟩, tr)
    else
      match execute_with_transaction s q with
      | ((true, v, _), tr) =>
        (⟨true, qt, none, 0, (match v with | .count n => n | _ => 0), none⟩, tr)
      | ((false, _, e), tr) => (⟨false, qt, none, 0, 0, e⟩, tr)

/-! ## DiffService (backend/app/services/diff_service.py)

Python builds `set`s of canonical row tuples; set iteration order is
unspecified there, so the model fixes a definite order via `List.dedup`.
The counts and membership content are order-independent. -/

/-- `sorted(row.items())`: Python sorts the (key, value) tuples
lexicographically. -/
def pairLe (a b : String × String) : Bool :=
  a.1 < b.1 || (a.1 == b.1 && a.2 ≤ b.2)

def insertPair (x : String × String) : List (String × String) → List (String × String)
  | [] => [x]
  | y :: ys => if pairLe x y then x :: y :: ys else y :: insertPair x ys

/-- Canonical form of a row: its (column, value) pairs in sorted order. -/
def canonRow (r : DBRow) : DBRow := r.foldr insertPair []

/-- `{tuple(sorted(row.items())) for row in rows}`. -/
def rowSet (rows : List DBRow) : List DBRow := (rows.map canonRow).dedup

/-- Result of `DiffService.calculate_row_diff`. -/
structure RowDiff where
  rows_added : Nat
  rows_removed : Nat
  rows_unchanged : Nat
  added_rows : List DBRow
  removed_rows : List DBRow
deriving DecidableEq

/-- Decidable set membership for canonical rows. -/
def memB (x : DBRow) (l : List DBRow) : Bool := decide (x ∈ l)

/-- `DiffService.calculate_row_diff`. -/
def calculate_row_diff (before after : List DBRow) : RowDiff :=
  let bs := rowSet before
  let aset := rowSet after
  let added := aset.filter (fun r => !(memB r bs))
  let removed := bs.filter (fun r => !(memB r aset))
  ⟨added.length, removed.length, (bs.filter (fun r => memB r aset)).length,
    added.take 10, removed.take 10⟩

/-- `DiffService.compare_column_changes`: empty-side guard, then for each
column of either side compare the per-column value lists and report up to 5
examples each.  (Python iterates a set of columns in unspecified order; the
model uses first-occurrence order.) -/
def compare_column_changes (before after : List DBRow) :
    List (String × List String × List String) :=
  if before.isEmpty || after.isEmpty then []
  else
    let allCols := ((before ++ after).map (fun r => r.map Prod.fst)).flatten.dedup
    allCols.filterMap (fun col =>
      let bv := before.filterMap (fun r => r.lookup col)
      let av := after.filterMap (fun r => r.lookup col)
      if bv = av then none else some (col, bv.take 5, av.take 5))

/-! ## Statement-shape predicates and fixtures used by the theorems -/

/-- The comment-stripped text begins (after leading whitespace) with the
`DROP DATABASE` construct, i.e. the denylist pattern `\bdrop\s+database\b`
matches right at the first significant position. -/
def startsDropDatabase (s : List Char) : Bool :=
  dropDbAt (s.dropWhile pyIsSpace)

/-- `"UPDATE <tbl> <mid> WHERE <cond>"` assembled from its pieces. -/
def mkUpdateStmt (tbl mid cond : List Char) : String :=
  String.mk (("UPDATE").data ++
    (' ' :: (tbl ++ (' ' :: (mid ++ ((" WHERE ").data ++ cond))))))

/-- A session oracle on which every database call would fail; used to show
that rejected statements never reach the session. -/
def idleSession : Session :=
  ⟨fun _ => ExecOutcome.raises "never reached", fun _ => some ("never reached")⟩

/-- A session on which the statement executes and its rows can be fetched,
but the first `commit` call raises while a second `commit` call succeeds
(after a failed commit SQLAlchemy starts a fresh, empty transaction, whose
commit goes through). -/
def retryCommitSession : Session :=
  ⟨fun _ => ExecOutcome.result (Except.ok [[("id", "1")]]) 1,
   fun i => if i == 0 then some ("commit failed: constraint violation") else none⟩

/-! ## Fidelity checks

Concrete evaluations of the embedding, matching the repository's unit
tests (backend/tests/test_query_validator.py) and hand-checked CPython
behaviour of the embedded regular expressions. -/

example : validate_generated_query ("DROP DATABASE postgres") = (false, some msgDropDb, none) := by decide
example : validate_generated_query ("TRUNCATE TABLE users") = (false, some msgTruncate, none) := by decide
example : validate_generated_query ("SELECT * FROM users; DELETE FROM users") = (false, some msgMulti, none) := by decide
example : validate_generated_query ("DELETE FROM users") = (false, some msgDeleteWhere, none) := by decide
example : validate_generated_query ("DELETE FROM users WHERE id = 1") = (true, none, some ("DELETE")) := by decide
example : validate_generated_query ("SELECT * FROM users") = (true, none, some ("SELECT")) := by decide
example : validate_generated_query ("INSERT INTO users (name) VALUES (1)") = (true, none, some ("INSERT")) := by decide
example : validate_generated_query ("\n        -- Get all users\n        SELECT * FROM users\n        /* where id > 0 */\n        WHERE active = true\n        ") = (true, none, some ("SELECT")) := by decide
example : inject_limit_to_select ("SELECT * FROM users") 100 = "SELECT * FROM users LIMIT 100" := by decide
example : inject_limit_to_select ("SELECT * FROM users LIMIT 50") 100 = "SELECT * FROM users LIMIT 50" := by decide
example : inject_limit_to_select ("SELECT a FROM t UNION SELECT b FROM u;") 100 = "(SELECT a FROM t UNION SELECT b FROM u;) LIMIT 100" := by decide
example : validate_generated_query ("SELECT 1;\nDROP TABLE users") = (true, none, some ("SELECT")) := by decide
example : validate_query ("TRUNCATE drop database") = (false, some msgDropDb) := by decide
example : validate_query ("DELETE FROM logs WHERE note = 'truncate'") = (false, some msgTruncate) := by decide
example : validate_query ("SELECT TRUNCATE(5.5,1)") = (false, some msgTruncate) := by decide
example : stripComments ("a/*x*/*/b").data = ("a*/b").data := by decide
example : stripComments ("/*/").data = ("/*/").data := by decide
example : stripComments ("x -- a\n-- b\ny").data = ("x \n\ny").data := by decide
example : stripComments ("SELECT /* truncate */ 1").data = ("SELECT  1").data := by decide

example : convert_update_to_select ("UPDATE users SET name='x' WHERE id=1") = "SELECT * FROM users WHERE id=1" := by decide
example : convert_update_to_select ("UPDATE awhere b") = "SELECT * FROM a WHERE b" := by decide
example : convert_update_to_select ("UPDATE t SET a='no where x' WHERE id=1") = "SELECT * FROM t WHERE x' WHERE id=1" := by decide
example : convert_update_to_select ("UPDATE t SET x=1 WHERE y=2;") = "SELECT * FROM t WHERE y=2" := by decide
example : convert_update_to_select ("UPDATE t SET x=1 WHERE y=2;;") = "SELECT * FROM t WHERE y=2;" := by decide
example : convert_update_to_select ("UPDATE t SET x=1 WHERE y=2;\n") = "SELECT * FROM t WHERE y=2" := by decide
example : convert_update_to_select ("  UPDATE t SET x=1 WHERE y=2") = "  UPDATE t  WHERE y=2" := by decide
example : convert_update_to_select ("UPDATE t SET x=1") = "SELECT * t SET x=1" := by decide
example : convert_update_to_select ("UPDATE t SET x=1 WHERE   ") = "SELECT * FROM t WHERE " := by decide
example : convert_update_to_select ("UPDATE where x=1") = "SELECT * where x=1" := by decide
example : convert_delete_to_select ("DELETE FROM users WHERE id = 1") = "SELECT * FROM users WHERE id = 1" := by decide
example : convert_delete_to_select ("delete   from t where x=1") = "SELECT * FROM t where x=1" := by decide

/-! ## Auxiliary lemmas -/

theorem findSetTail_length {p : Char} {l r : List Char}
    (h : findSetTail p l = some r) : r.length < l.length := by
  induction l generalizing p with
  | nil => simp [findSetTail] at h
  | cons c cs ih =>
    simp only [findSetTail] at h
    split at h
    · rename_i hcond
      cases h
      by_cases h5 : 5 ≤ (c :: cs).length
      · simp only [List.length_drop, List.length_cons]
        simp only [List.length_cons] at h5
        omega
      · exfalso
        have : startsWithCI whereKw (c :: cs) = false := by
          have hlen : (c :: cs).length < 5 := by omega
          revert hlen
          cases cs with
          | nil => intro _; simp [startsWithCI, whereKw]
          | cons a t =>
            cases t with
            | nil => intro _; simp [startsWithCI, whereKw]
            | cons b u =>
              cases u with
              | nil => intro _; simp [startsWithCI, whereKw]
              | cons d v =>
                cases v with
                | nil => intro _; simp [startsWithCI, whereKw]
                | cons e w => intro hlen; simp [List.length_cons] at hlen; omega
        simp [this] at hcond
    · have := ih h
      simp only [List.length_cons]
      omega

theorem matchSetAt_length {s r : List Char} (h : matchSetAt s = some r) :
    r.length < s.length := by
  unfold matchSetAt at h
  split at h
  · split at h
    · rename_i c3 c4 rest5 heq
      split at h
      · have h1 := findSetTail_length h
        have h2 : (s.drop 3).length = rest5.length + 2 := by rw [heq]; simp
        simp only [List.length_drop] at h2
        omega
      · simp at h
    · simp at h
  · simp at h


theorem length_filter_mem (l m : List DBRow) (hl : l.Nodup) :
    (l.filter (fun a => memB a m)).length = (l.toFinset ∩ m.toFinset).card := by
  have hnd : (l.filter (fun a => memB a m)).Nodup := hl.filter _
  rw [← List.toFinset_card_of_nodup hnd]
  congr 1
  ext a
  simp [List.mem_filter, memB]

theorem pyIsSpace_not_word {c : Char} (h : pyIsSpace c = true) : isWordChar c = false := by
  simp only [pyIsSpace, Bool.or_eq_true, beq_iff_eq] at h
  simp only [isWordChar, Bool.or_eq_false_iff, Bool.and_eq_false_iff, beq_eq_false_iff_ne,
    ne_eq, decide_eq_false_iff_not, not_le]
  omega

theorem startsKwP_head_excl {a b : Char} {p q s : List Char} (hab : a ≠ b)
    (h1 : startsKwP (a :: p) s = true) : startsKwP (b :: q) s = false := by
  unfold startsKwP at h1 ⊢
  rcases hdw : s.dropWhile pyIsSpace with _ | ⟨x, xs⟩ <;> rw [hdw] at h1
  · simp [startsWithCI] at h1
  · simp only [startsWithCI, Bool.and_eq_true, beq_iff_eq] at h1
    have hx : a = x.toLower := h1.1.1
    have hbx : (b == x.toLower) = false := by
      rw [← hx]
      exact beq_eq_false_iff_ne.mpr (fun hba => hab hba.symm)
    simp [startsWithCI, hbx]

theorem wordOccursAux_dropWhile (kw : List Char) (hkw : kw ≠ []) :
    ∀ (s : List Char) (prev : Option Char), boundaryPrev prev = true →
    (startsWithCI kw (s.dropWhile pyIsSpace) &&
      boundaryAfterAt ((s.dropWhile pyIsSpace).drop kw.length)) = true →
    wordOccursAux kw prev s = true := by
  intro s
  induction s with
  | nil =>
    intro prev _ h
    rcases kw with _ | ⟨k, ks⟩
    · exact absurd rfl hkw
    · simp [startsWithCI] at h
  | cons c cs ih =>
    intro prev hp h
    by_cases hc : pyIsSpace c = true
    · rw [show (c :: cs).dropWhile pyIsSpace = cs.dropWhile pyIsSpace by
        simp [List.dropWhile_cons, hc]] at h
      have hrec := ih (some c) (by simp [boundaryPrev, pyIsSpace_not_word hc]) h
      simp [wordOccursAux, hrec]
    · rw [show (c :: cs).dropWhile pyIsSpace = c :: cs by
        simp [List.dropWhile_cons, hc]] at h
      simp only [Bool.and_eq_true] at h
      simp [wordOccursAux, hp, h.1, h.2]

theorem wordOccurs_of_startsKwP {kw s : List Char} (hkw : kw ≠ [])
    (h : startsKwP kw s = true) : wordOccurs kw s = true := by
  unfold startsKwP at h
  exact wordOccursAux_dropWhile kw hkw s none rfl h

theorem dropDbOccursAux_dropWhile :
    ∀ (s : List Char) (prev : Option Char), boundaryPrev prev = true →
    dropDbAt (s.dropWhile pyIsSpace) = true →
    dropDbOccursAux prev s = true := by
  intro s
  induction s with
  | nil =>
    intro prev _ h
    simp [dropDbAt, dropKw, startsWithCI] at h
  | cons c cs ih =>
    intro prev hp h
    by_cases hc : pyIsSpace c = true
    · rw [show (c :: cs).dropWhile pyIsSpace = cs.dropWhile pyIsSpace by
        simp [List.dropWhile_cons, hc]] at h
      have hrec := ih (some c) (by simp [boundaryPrev, pyIsSpace_not_word hc]) h
      simp [dropDbOccursAux, hrec]
    · rw [show (c :: cs).dropWhile pyIsSpace = c :: cs by
        simp [List.dropWhile_cons, hc]] at h
      simp [dropDbOccursAux, hp, h]

theorem dropDbOccurs_of_starts {s : List Char} (h : startsDropDatabase s = true) :
    dropDbOccurs s = true := by
  unfold startsDropDatabase at h
  exact dropDbOccursAux_dropWhile s none rfl h

theorem inject_no_limit_output (q : String)
    (hsel : startsKwP selKw (stripComments q.data) = true)
    (hlim : wordOccurs limitKw (stripComments q.data) = false) :
    (inject_limit_to_select q 100).data =
      '(' :: (q.data ++ (')' :: ((" LIMIT 100").data))) ∨
    (inject_limit_to_select q 100).data =
      rstripSemis q.data ++ ((" LIMIT 100").data) := by
  unfold inject_limit_to_select
  simp only [hsel, hlim, Bool.not_false, if_true]
  split
  · exact Or.inl rfl
  · exact Or.inr rfl

theorem startsWithL_self (p : List Char) : startsWithL p p = true := by
  induction p with
  | nil => rfl
  | cons c cs ih => simp [startsWithL, ih]

theorem startsWithL_append_self (p r : List Char) : startsWithL p (p ++ r) = true := by
  induction p with
  | nil => rfl
  | cons c cs ih => simp [startsWithL, ih]

theorem hasSubstr_append_self (p : List Char) (hp : p ≠ []) :
    ∀ l : List Char, hasSubstr p (l ++ p) = true := by
  intro l
  induction l with
  | nil =>
    rcases p with _ | ⟨c, cs⟩
    · exact absurd rfl hp
    · show hasSubstr (c :: cs) (c :: cs) = true
      simp [hasSubstr, startsWithL_self]
  | cons a l ih =>
    simp [hasSubstr, ih]

theorem takeWhile_append_stop (p : Char → Bool) :
    ∀ (xs : List Char), (∀ c ∈ xs, p c = true) → ∀ (y : Char), p y = false →
    ∀ ys : List Char,
    (xs ++ y :: ys).takeWhile p = xs ∧ (xs ++ y :: ys).dropWhile p = y :: ys := by
  intro xs
  induction xs with
  | nil =>
    intro _ y hy ys
    constructor
    · simp [List.takeWhile_cons, hy]
    · simp [List.dropWhile_cons, hy]
  | cons x xs ih =>
    intro hall y hy ys
    have hx : p x = true := hall x (by simp)
    have := ih (fun c hc => hall c (by simp [hc])) y hy ys
    constructor
    · simp only [List.cons_append, List.takeWhile_cons_of_pos hx, this.1]
    · simp only [List.cons_append, List.dropWhile_cons_of_pos hx, this.2]

theorem startsWithCI_append_left (pat : List Char) :
    ∀ (a b : List Char), pat.length ≤ a.length →
    startsWithCI pat (a ++ b) = startsWithCI pat a := by
  induction pat with
  | nil => intro a b _; rfl
  | cons p ps ih =>
    intro a b hlen
    rcases a with _ | ⟨x, xs⟩
    · simp at hlen
    · simp only [List.cons_append, startsWithCI, List.append_eq]
      rw [ih xs b (by simpa using hlen)]

theorem startsWithCI_of_prefix (pat pre r : List Char)
    (h : startsWithCI pat pre = true) (hlen : pat.length ≤ pre.length) :
    startsWithCI pat (pre ++ r) = true := by
  rw [startsWithCI_append_left pat pre r hlen]
  exact h

theorem startsWithCI_where_space (m : List Char) (h : m.length ≤ 4) (rest : List Char) :
    startsWithCI whereKw (m ++ ' ' :: rest) = false := by
  have hW : ('w' == Char.toLower ' ') = false := by decide
  have hH : ('h' == Char.toLower ' ') = false := by decide
  have hE : ('e' == Char.toLower ' ') = false := by decide
  have hR : ('r' == Char.toLower ' ') = false := by decide
  rcases m with _ | ⟨a, _ | ⟨b, _ | ⟨c, _ | ⟨d, _ | ⟨e, t⟩⟩⟩⟩⟩
  · simp [whereKw, startsWithCI, hW]
  · simp [whereKw, startsWithCI, hH]
  · simp [whereKw, startsWithCI, hE]
  · simp [whereKw, startsWithCI, hR]
  · simp [whereKw, startsWithCI, hE]
  · exfalso
    simp only [List.length_cons] at h
    omega

theorem dropWhile_head_stop {p : Char → Bool} {l : List Char}
    (h : ∀ c, l.head? = some c → p c = false) : l.dropWhile p = l := by
  cases l with
  | nil => rfl
  | cons c t => simp [List.dropWhile_cons, h c rfl]

theorem takeWhile_head_stop {p : Char → Bool} {l : List Char}
    (h : ∀ c, l.head? = some c → p c = false) : l.takeWhile p = [] := by
  cases l with
  | nil => rfl
  | cons c t => simp [List.takeWhile_cons, h c rfl]

theorem pyStrip_eq_self {l : List Char}
    (h1 : ∀ c, l.head? = some c → pyIsSpace c = false)
    (h2 : ∀ c, l.getLast? = some c → pyIsSpace c = false) : pyStrip l = l := by
  unfold pyStrip
  rw [dropWhile_head_stop h1]
  rw [dropWhile_head_stop (fun c hc => h2 c (by rwa [List.head?_reverse] at hc))]
  exact List.reverse_reverse l

theorem pyStrip_eq_self_of_all {l : List Char}
    (h : ∀ c ∈ l, pyIsSpace c = false) : pyStrip l = l := by
  refine pyStrip_eq_self (fun c hc => h c ?_) (fun c hc => h c ?_)
  · exact List.mem_of_mem_head? (by simp [hc])
  · have : c ∈ l.reverse := List.mem_of_mem_head? (by simp [List.head?_reverse, hc])
    simpa using this

theorem matchTail_space {cond : List Char} {c0 : Char} {condR : List Char}
    (hcond : cond = c0 :: condR) (hc0 : pyIsSpace c0 = false) :
    matchTail (' ' :: cond) = some (group2Of cond) := by
  unfold matchTail
  have ht : (' ' :: cond).takeWhile pyIsSpace = [' '] := by
    rw [List.takeWhile_cons_of_pos (by decide)]
    rw [takeWhile_head_stop (fun c hc => by
      rw [hcond] at hc
      simp at hc
      exact hc ▸ hc0)]
  have hd : (' ' :: cond).dropWhile pyIsSpace = cond := by
    rw [List.dropWhile_cons_of_pos (by decide)]
    exact dropWhile_head_stop (fun c hc => by
      rw [hcond] at hc
      simp at hc
      exact hc ▸ hc0)
  rw [ht, hd, hcond]
  simp

theorem group2Of_eq_self {cond : List Char} {cl : Char} (hl : cond.getLast? = some cl)
    (h1 : cl ≠ ';') (h2 : cl ≠ '\n') : group2Of cond = cond := by
  unfold group2Of
  have hrev : cond.reverse.head? = some cl := by rw [List.head?_reverse]; exact hl
  rcases hre : cond.reverse with _ | ⟨a, rr⟩
  · rw [hre] at hrev
  · have ha : a = cl := by rw [hre] at hrev; simpa using hrev
    subst ha
    split <;> simp_all

theorem group2Of_strip_semi {cond : List Char} (hne : cond ≠ []) :
    group2Of (cond ++ [';']) = cond := by
  unfold group2Of
  have hrev : (cond ++ [';']).reverse = ';' :: cond.reverse := by simp
  rw [hrev]
  rcases hre : cond.reverse with _ | ⟨a, rr⟩
  · exact absurd (List.reverse_eq_nil_iff.mp hre) hne
  · show (a :: rr).reverse = cond
    rw [← hre, List.reverse_reverse]

theorem findWhereTail_skip {cond : List Char} {c0 : Char} {condR : List Char}
    (hcond : cond = c0 :: condR) (hc0 : pyIsSpace c0 = false) :
    ∀ (mid : List Char), containsCI whereKw mid = false →
    findWhereTail (mid ++ ((" WHERE ").data ++ cond)) = some (group2Of cond) := by
  intro mid
  induction mid with
  | nil =>
    intro _
    have hsp : startsWithCI whereKw (' ' :: ('W' :: 'H' :: 'E' :: 'R' :: 'E' ::
        (' ' :: cond))) = false := by
      have : ('w' == Char.toLower ' ') = false := by decide
      simp [whereKw, startsWithCI, this]
    have hW : startsWithCI whereKw ('W' :: 'H' :: 'E' :: 'R' :: 'E' :: (' ' :: cond)) =
        true :=
      startsWithCI_of_prefix whereKw (['W', 'H', 'E', 'R', 'E']) (' ' :: cond)
        (by decide) (by decide)
    show findWhereTail (' ' :: ('W' :: 'H' :: 'E' :: 'R' :: 'E' :: (' ' :: cond))) = _
    rw [findWhereTail, hsp]
    simp only [Bool.false_eq_true, if_false]
    rw [findWhereTail, hW]
    simp only [if_true]
    rw [show List.drop 5 ('W' :: 'H' :: 'E' :: 'R' :: 'E' :: ' ' :: cond) = ' ' :: cond
      from rfl]
    rw [matchTail_space hcond hc0]
  | cons c m ih =>
    intro hcc
    have hcc' : startsWithCI whereKw (c :: m) = false ∧ containsCI whereKw m = false := by
      simpa [containsCI] using hcc
    have hfail : startsWithCI whereKw (c :: (m ++ ((" WHERE ").data ++ cond))) = false := by
      rw [← List.cons_append]
      by_cases h5 : 5 ≤ (c :: m).length
      · rw [startsWithCI_append_left whereKw (c :: m) _ (by simpa [whereKw] using h5)]
        exact hcc'.1
      · have h4 : (c :: m).length ≤ 4 := by omega
        exact startsWithCI_where_space (c :: m) h4 _
    rw [List.cons_append, findWhereTail, hfail]
    simp only [Bool.false_eq_true, if_false]
    exact ih hcc'.2

theorem updMatch_clean {tbl mid cond : List Char} {t0 : Char} {tbl' : List Char}
    (htbl : tbl = t0 :: tbl') (htw : ∀ c ∈ tbl, pyIsSpace c = false)
    (hmid : containsCI whereKw mid = false)
    {c0 : Char} {condR : List Char} (hcond : cond = c0 :: condR)
    (hc0 : pyIsSpace c0 = false) :
    updMatch ((mkUpdateStmt tbl mid cond).data) = some (tbl, group2Of cond) := by
  have ht0 : pyIsSpace t0 = false := htw t0 (by simp [htbl])
  have hdata : (mkUpdateStmt tbl mid cond).data =
      ("UPDATE").data ++ (' ' :: (tbl ++ (' ' :: (mid ++ ((" WHERE ").data ++ cond))))) :=
    rfl
  rw [hdata]
  unfold updMatch
  have h1 : startsWithCI updKw
      (("UPDATE").data ++ (' ' :: (tbl ++ (' ' :: (mid ++ ((" WHERE ").data ++ cond)))))) =
      true :=
    startsWithCI_of_prefix updKw (("UPDATE").data) _ (by decide) (by decide)
  rw [h1]
  have h2 : (("UPDATE").data ++
      (' ' :: (tbl ++ (' ' :: (mid ++ ((" WHERE ").data ++ cond)))))).drop 6 =
      ' ' :: (tbl ++ (' ' :: (mid ++ ((" WHERE ").data ++ cond)))) := by
    rw [show (6 : Nat) = ("UPDATE").data.length from rfl, List.drop_left]
  rw [h2]
  have h4 : (' ' :: (tbl ++ (' ' :: (mid ++ ((" WHERE ").data ++ cond))))).dropWhile
      pyIsSpace = tbl ++ (' ' :: (mid ++ ((" WHERE ").data ++ cond))) := by
    rw [List.dropWhile_cons_of_pos (by decide)]
    apply dropWhile_head_stop
    intro c hc
    rw [htbl] at hc
    simp only [List.cons_append, List.head?_cons, Option.some.injEq] at hc
    exact hc ▸ ht0
  rw [h4]
  obtain ⟨h5, h6⟩ := takeWhile_append_stop (fun c => !(pyIsSpace c)) tbl
    (fun c hc => by simp [htw c hc]) ' ' (by decide) (mid ++ ((" WHERE ").data ++ cond))
  rw [h5, h6]
  have h7 : (' ' :: (tbl ++ (' ' :: (mid ++ ((" WHERE ").data ++ cond))))).takeWhile
      pyIsSpace =
      ' ' :: ((tbl ++ (' ' :: (mid ++ ((" WHERE ").data ++ cond)))).takeWhile pyIsSpace) :=
    List.takeWhile_cons_of_pos (by decide)
  rw [h7, htbl]
  have hdrop : (t0 :: tbl').drop (tbl'.length + 1) = ([] : List Char) := by
    rw [show tbl'.length + 1 = (t0 :: tbl').length from rfl]
    exact List.drop_length _
  have htake : (t0 :: tbl').take (tbl'.length + 1) = t0 :: tbl' := by
    rw [show tbl'.length + 1 = (t0 :: tbl').length from rfl]
    exact List.take_length _
  have hsw : startsWithCI whereKw (' ' :: mid) = false := by
    have hws : ('w' == Char.toLower ' ') = false := by decide
    simp [startsWithCI, whereKw, hws]
  have hmid' : containsCI whereKw (' ' :: mid) = false := by
    rw [containsCI, hsw, hmid]
    rfl
  simp only [List.isEmpty_cons, Bool.or_self, Bool.false_eq_true, if_false,
    List.length_cons]
  rw [tryG1, hdrop, List.nil_append]
  rw [show ' ' :: (mid ++ ((" WHERE ").data ++ cond)) =
    (' ' :: mid) ++ ((" WHERE ").data ++ cond) from rfl]
  rw [findWhereTail_skip hcond hc0 (' ' :: mid) hmid']
  rw [htake]
  simp

/-! ## Claims -/

/-- C1.  The spec claims that on any exception raised during execution or
commit the transaction is rolled back and the call fails.  The code violates
this: an exception raised by the first `commit` (after a successful fetch) is
caught by the inner `except Exception` handler — written for write statements
whose `fetchall` fails — which then calls `commit` a second time.  On a
session where that second commit succeeds, `execute_with_transaction` returns
success (with the rowcount instead of the rows) and never rolls back. -/
theorem execute_with_transaction_commit_retry :
    execute_with_transaction retryCommitSession ("UPDATE users SET name = 'x' WHERE id = 1") =
      ((true, TxValue.count 1, none),
        [Ev.execOk, Ev.fetchOk, Ev.commitFail, Ev.commitOk]) ∧
    Ev.rollback ∉
      (execute_with_transaction retryCommitSession
        ("UPDATE users SET name = 'x' WHERE id = 1")).2 ∧
    Ev.commitFail ∈
      (execute_with_transaction retryCommitSession
        ("UPDATE users SET name = 'x' WHERE id = 1")).2 := by
  refine ⟨rfl, by decide, by decide⟩

/-- C2.  The preview path never commits: for every session oracle and every
input text, neither `execute_preview_query` nor `preview_query` ever issues a
commit (successful or failed), even when the previewed statement is a
write. -/
theorem preview_path_never_commits (s : Session) (q : String) :
    Ev.commitOk ∉ (execute_preview_query s q).2 ∧
    Ev.commitFail ∉ (execute_preview_query s q).2 ∧
    Ev.commitOk ∉ (preview_query s q).2 ∧
    Ev.commitFail ∉ (preview_query s q).2 := by
  rcases hv : validate_preview_query q with ⟨b, e⟩
  rcases h0 : s.exec 0 with m | ⟨f, rc⟩
  · cases b <;> simp [preview_query, execute_preview_query, hv, h0]
  · rcases f with m | rows
    · cases b <;> simp [preview_query, execute_preview_query, hv, h0]
    · rcases h1 : s.exec 1 with m2 | ⟨f2, rc2⟩
      · cases b <;> simp [preview_query, execute_preview_query, hv, h0, h1]
      · rcases f2 with m2 | rows2 <;> cases b <;>
          simp [preview_query, execute_preview_query, hv, h0, h1]

/-- C4.  The spec claims limit injection wraps compound SELECTs as
`(original) LIMIT n` AND strips trailing semicolons before appending the
clause.  The code only strips semicolons in the plain-append branch: in the
compound branch the original text — semicolon included — is parenthesised
verbatim, yielding `(...;) LIMIT 100`, which is not valid SQL. -/
theorem inject_limit_compound_keeps_semicolon :
    inject_limit_to_select ("SELECT id FROM a UNION SELECT id FROM b;") 100 =
      "(SELECT id FROM a UNION SELECT id FROM b;) LIMIT 100" ∧
    hasSubstr ((";)").data)
      ((inject_limit_to_select ("SELECT id FROM a UNION SELECT id FROM b;") 100).data) =
      true := by
  refine ⟨by decide, by decide⟩

/-- C9.  Row diffing is symmetric over deduplicated canonical row sets:
`rows_added` of `diff(A, B)` equals `rows_removed` of `diff(B, A)` (row
identity being the sorted (column, value) list computed by `canonRow`),
`rows_unchanged` is the cardinality of the intersection of the two row sets,
and the reported samples contain at most 10 rows each. -/
theorem calculate_row_diff_symmetric (A B : List DBRow) :
    (calculate_row_diff A B).rows_added = (calculate_row_diff B A).rows_removed ∧
    (calculate_row_diff A B).rows_unchanged =
      ((rowSet A).toFinset ∩ (rowSet B).toFinset).card ∧
    (calculate_row_diff A B).added_rows.length ≤ 10 ∧
    (calculate_row_diff A B).removed_rows.length ≤ 10 := by
  refine ⟨rfl, ?_, ?_, ?_⟩
  · simp only [calculate_row_diff]
    exact length_filter_mem (rowSet A) (rowSet B) (List.nodup_dedup _)
  · show (((rowSet B).filter _).take 10).length ≤ 10
    simp [List.length_take]
  · show (((rowSet A).filter _).take 10).length ≤ 10
    simp [List.length_take]

/-- C10.  If either snapshot is empty, `compare_column_changes` reports no
column change at all — even when the other snapshot is non-empty. -/
theorem compare_column_changes_empty_side (before after : List DBRow)
    (h : before = [] ∨ after = []) :
    compare_column_changes before after = [] := by
  rcases h with h | h <;> subst h <;> simp [compare_column_changes]

/-- Witness for C10 at a concrete input: an insertion into an empty snapshot
reports no column changes. -/
theorem compare_column_changes_empty_side_w :
    compare_column_changes [] [[("id", "1"), ("name", "ada")]] = [] :=
  compare_column_changes_empty_side [] [[("id", "1"), ("name", "ada")]] (Or.inl rfl)

/-- C3 counterexample.  `"select 1; select 2"` is a SELECT text containing no
LIMIT keyword, yet validation rejects it (the batching guard in the
dangerous-pattern scan fires), so "for every SELECT text not containing a
LIMIT keyword, validation accepts" is false as stated. -/
theorem select_without_limit_rejected_cex :
    startsKwP selKw (stripComments (("select 1; select 2").data)) = true ∧
    wordOccurs limitKw (stripComments (("select 1; select 2").data)) = false ∧
    validate_generated_query ("select 1; select 2") = (false, some msgMulti, none) := by
  refine ⟨by decide, by decide, by decide⟩

/-- C3 (amended).  For every SELECT-classified text whose comment-stripped
form passes the dangerous-pattern scan: if it contains no LIMIT token,
validation accepts with kind SELECT and the limit-injected text contains
`" LIMIT 100"`; if it already contains a LIMIT token, limit injection
returns the original text unchanged.  (`validate_generated_query` itself
discards the rewritten text; the rewritten text of the claim is the value of
`inject_limit_to_select`, which the validator computes for SELECTs.) -/
theorem select_limit_injection (q : String)
    (hsel : startsKwP selKw (stripComments q.data) = true)
    (hdb : dropDbOccurs (stripComments q.data) = false)
    (htr : wordOccurs truncKw (stripComments q.data) = false)
    (hba : batchOccurs (stripComments q.data) = false) :
    (wordOccurs limitKw (stripComments q.data) = false →
      validate_generated_query q = (true, none, some ("SELECT")) ∧
      hasSubstr ((" LIMIT 100").data) ((inject_limit_to_select q 100).data) = true) ∧
    (wordOccurs limitKw (stripComments q.data) = true →
      inject_limit_to_select q 100 = q) := by
  have hvq : validate_query q = (true, none) := by
    simp [validate_query, hdb, htr, hba]
  have hdel : startsKwP delKw (stripComments q.data) = false :=
    startsKwP_head_excl (by decide) hsel
  have hrw : require_where_for_delete q = (true, none) := by
    simp [require_where_for_delete, hdel]
  have hgt : get_query_type q = some ("SELECT") := by
    simp [get_query_type, hsel]
  constructor
  · intro hlim
    refine ⟨by simp [validate_generated_query, hvq, hrw, hgt], ?_⟩
    rcases inject_no_limit_output q hsel hlim with h | h
    · rw [h]
      have hh := hasSubstr_append_self ((" LIMIT 100").data) (by decide)
        ('(' :: (q.data ++ [')']))
      simpa [List.append_assoc] using hh
    · rw [h]
      exact hasSubstr_append_self ((" LIMIT 100").data) (by decide) (rstripSemis q.data)
  · intro hlim
    simp [inject_limit_to_select, hsel, hlim]

/-- Witness for C3 (amended): the spec's own end-to-end example plus a SELECT
that already carries a LIMIT. -/
theorem select_limit_injection_w :
    validate_generated_query ("SELECT * FROM users") = (true, none, some ("SELECT")) ∧
    hasSubstr ((" LIMIT 100").data)
      ((inject_limit_to_select ("SELECT * FROM users") 100).data) = true ∧
    inject_limit_to_select ("SELECT * FROM users LIMIT 50") 100 =
      "SELECT * FROM users LIMIT 50" := by
  have h1 := select_limit_injection ("SELECT * FROM users")
    (by decide) (by decide) (by decide) (by decide)
  have h2 := select_limit_injection ("SELECT * FROM users LIMIT 50")
    (by decide) (by decide) (by decide) (by decide)
  exact ⟨(h1.1 (by decide)).1, (h1.1 (by decide)).2, h2.2 (by decide)⟩

/-- C5 counterexample.  A DELETE with a WHERE clause whose string literal
contains the word "truncate" is rejected by the denylist (the `\btruncate\b`
pattern matches inside the quoted literal), so "for every DELETE text with a
WHERE token, validation accepts with kind DELETE" is false as stated. -/
theorem delete_where_literal_cex :
    startsKwP delKw (stripComments (("DELETE FROM logs WHERE note = 'truncate'").data)) =
      true ∧
    wordOccurs whereKw (stripComments (("DELETE FROM logs WHERE note = 'truncate'").data)) =
      true ∧
    validate_generated_query ("DELETE FROM logs WHERE note = 'truncate'") =
      (false, some msgTruncate, none) := by
  refine ⟨by decide, by decide, by decide⟩

/-- C5 (amended).  For every DELETE-classified text whose comment-stripped
form passes the dangerous-pattern scan: without a WHERE token validation
rejects with the WHERE-specific message and `execute_query` returns failure
without touching the session; with a WHERE token validation accepts with
kind DELETE. -/
theorem delete_where_rule (q : String)
    (hdel : startsKwP delKw (stripComments q.data) = true)
    (hdb : dropDbOccurs (stripComments q.data) = false)
    (htr : wordOccurs truncKw (stripComments q.data) = false)
    (hba : batchOccurs (stripComments q.data) = false) :
    (wordOccurs whereKw (stripComments q.data) = false →
      validate_generated_query q = (false, some msgDeleteWhere, none) ∧
      ∀ s : Session,
        execute_query s q = (⟨false, none, none, 0, 0, some msgDeleteWhere⟩, [])) ∧
    (wordOccurs whereKw (stripComments q.data) = true →
      validate_generated_query q = (true, none, some ("DELETE"))) := by
  have hvq : validate_query q = (true, none) := by
    simp [validate_query, hdb, htr, hba]
  constructor
  · intro hw
    have hrw : require_where_for_delete q = (false, some msgDeleteWhere) := by
      simp [require_where_for_delete, hdel, hw]
    have hvg : validate_generated_query q = (false, some msgDeleteWhere, none) := by
      simp [validate_generated_query, hvq, hrw]
    exact ⟨hvg, fun s => by simp [execute_query, hvg]⟩
  · intro hw
    have hrw : require_where_for_delete q = (true, none) := by
      simp [require_where_for_delete, hdel, hw]
    have hsel : startsKwP selKw (stripComments q.data) = false :=
      startsKwP_head_excl (by decide) hdel
    have hins : startsKwP insKw (stripComments q.data) = false :=
      startsKwP_head_excl (by decide) hdel
    have hupd : startsKwP updKw (stripComments q.data) = false :=
      startsKwP_head_excl (by decide) hdel
    have hgt : get_query_type q = some ("DELETE") := by
      simp [get_query_type, hsel, hins, hupd, hdel]
    simp [validate_generated_query, hvq, hrw, hgt]

/-- Witness for C5 (amended): the spec's own examples. -/
theorem delete_where_rule_w :
    validate_generated_query ("DELETE FROM users") = (false, some msgDeleteWhere, none) ∧
    execute_query idleSession ("DELETE FROM users") =
      (⟨false, none, none, 0, 0, some msgDeleteWhere⟩, []) ∧
    validate_generated_query ("DELETE FROM users WHERE id = 1") =
      (true, none, some ("DELETE")) := by
  have h1 := delete_where_rule ("DELETE FROM users")
    (by decide) (by decide) (by decide) (by decide)
  have h2 := delete_where_rule ("DELETE FROM users WHERE id = 1")
    (by decide) (by decide) (by decide) (by decide)
  exact ⟨(h1.1 (by decide)).1, (h1.1 (by decide)).2 idleSession, h2.2 (by decide)⟩

/-- C6 counterexample.  `"SELECT 1;\nDROP TABLE users"` contains a semicolon
followed by the keyword DROP, yet validation accepts it: the batching
pattern's `.*?` does not match across the newline (no DOTALL flag).  And in
`"TRUNCATE x; SELECT 1"` the semicolon-keyword pattern is present but the
rejection message is the TRUNCATE one, because the denylist is scanned in
order. -/
theorem multi_statement_newline_cex :
    hasSubstr ((";\nDROP").data) (stripComments (("SELECT 1;\nDROP TABLE users").data)) =
      true ∧
    validate_generated_query ("SELECT 1;\nDROP TABLE users") =
      (true, none, some ("SELECT")) ∧
    batchOccurs (stripComments (("TRUNCATE x; SELECT 1").data)) = true ∧
    validate_query ("TRUNCATE x; SELECT 1") = (false, some msgTruncate) := by
  refine ⟨by decide, by decide, by decide, by decide⟩

/-- C6 (amended).  For every text whose comment-stripped form contains a
semicolon followed ON THE SAME LINE by one of the statement keywords
(`batchOccurs`), and which matches neither of the two denylist patterns
checked earlier (DROP DATABASE, TRUNCATE), validation rejects with the
multiple-statements message. -/
theorem multi_statement_guard (q : String)
    (hdb : dropDbOccurs (stripComments q.data) = false)
    (htr : wordOccurs truncKw (stripComments q.data) = false)
    (hba : batchOccurs (stripComments q.data) = true) :
    validate_generated_query q = (false, some msgMulti, none) := by
  have hvq : validate_query q = (false, some msgMulti) := by
    simp [validate_query, hdb, htr, hba]
  simp [validate_generated_query, hvq]

/-- Witness for C6 (amended): the spec's own end-to-end example (semicolon
and DROP on one line). -/
theorem multi_statement_guard_w :
    validate_generated_query ("SELECT 1; DROP TABLE users") =
      (false, some msgMulti, none) :=
  multi_statement_guard ("SELECT 1; DROP TABLE users") (by decide) (by decide) (by decide)

/-- C7 counterexample.  `"TRUNCATE drop database"` begins with TRUNCATE, but
the rejection message names DROP DATABASE (the denylist is scanned in order
and `\bdrop\s+database\b` also matches), so "rejects with a message naming
that construct" is false as stated. -/
theorem denylist_message_cex :
    startsKwP truncKw (stripComments (("TRUNCATE drop database").data)) = true ∧
    validate_query ("TRUNCATE drop database") = (false, some msgDropDb) ∧
    hasSubstr (("TRUNCATE").data) (msgDropDb.data) = false := by
  refine ⟨by decide, by decide, by decide⟩

/-- C7 (amended).  Comment stripping happens before any pattern match, and
all decisions are made on the stripped text.  A text beginning (after
stripping) with DROP DATABASE is rejected with the DROP DATABASE message; a
text beginning with TRUNCATE whose stripped form does not also match the
DROP DATABASE pattern (checked first) is rejected with the TRUNCATE message;
denylisted keywords hidden inside comments do not cause rejection. -/
theorem denylist_rejection (q : String) :
    (startsDropDatabase (stripComments q.data) = true →
      validate_query q = (false, some msgDropDb)) ∧
    (startsKwP truncKw (stripComments q.data) = true →
      dropDbOccurs (stripComments q.data) = false →
      validate_query q = (false, some msgTruncate)) ∧
    validate_query ("SELECT 1 -- TRUNCATE") = (true, none) ∧
    validate_query ("SELECT /* DROP DATABASE x */ 1") = (true, none) := by
  refine ⟨?_, ?_, by decide, by decide⟩
  · intro h
    have hd := dropDbOccurs_of_starts h
    simp [validate_query, hd]
  · intro h hdb
    have ht := wordOccurs_of_startsKwP (by decide) h
    simp [validate_query, hdb, ht]

/-- C8.  For every UPDATE statement `UPDATE <tbl> <mid> WHERE <cond>` with a
whitespace-free table token right after UPDATE, no `where` occurrence inside
the SET part, and a tidy condition (nonempty, not starting or ending with
whitespace, not ending in an extra `;`), the preview transformation yields
`SELECT * FROM <tbl> WHERE <cond>`; a single trailing semicolon after the
condition is trimmed. -/
theorem update_preview_transform (tbl mid cond : List Char) (t0 c0 cl : Char)
    (tbl' condR : List Char)
    (htbl : tbl = t0 :: tbl') (htw : ∀ c ∈ tbl, pyIsSpace c = false)
    (hmid : containsCI whereKw mid = false)
    (hcond : cond = c0 :: condR) (hc0 : pyIsSpace c0 = false)
    (hcl : cond.getLast? = some cl) (hclw : pyIsSpace cl = false) (hcls : cl ≠ ';') :
    convert_update_to_select (mkUpdateStmt tbl mid cond) =
      String.mk (("SELECT * FROM ").data ++ (tbl ++ ((" WHERE ").data ++ cond))) ∧
    convert_update_to_select (mkUpdateStmt tbl mid (cond ++ [';'])) =
      String.mk (("SELECT * FROM ").data ++ (tbl ++ ((" WHERE ").data ++ cond))) := by
  have hcln : cl ≠ '\n' := by
    intro he
    rw [he] at hclw
    exact absurd hclw (by decide)
  have hg2 : group2Of cond = cond := group2Of_eq_self hcl hcls hcln
  have hstr_tbl : pyStrip tbl = tbl := pyStrip_eq_self_of_all htw
  have hstr_cond : pyStrip cond = cond := by
    apply pyStrip_eq_self
    · intro c hc
      rw [hcond] at hc
      simp at hc
      exact hc ▸ hc0
    · intro c hc
      rw [hcl] at hc
      simp at hc
      exact hc ▸ hclw
  constructor
  · have hm := updMatch_clean htbl htw hmid hcond hc0
    unfold convert_update_to_select
    rw [hm]
    show String.mk (("SELECT * FROM ").data ++ pyStrip tbl ++
      ((" WHERE ").data ++ pyStrip (group2Of cond))) = _
    rw [hg2, hstr_tbl, hstr_cond]
    exact congrArg String.mk (by simp [List.append_assoc])
  · have hcond' : cond ++ [';'] = c0 :: (condR ++ [';']) := by
      rw [hcond]
      rfl
    have hm := updMatch_clean htbl htw hmid hcond' hc0
    have hg2' : group2Of (cond ++ [';']) = cond := by
      apply group2Of_strip_semi
      rw [hcond]
      simp
    unfold convert_update_to_select
    rw [hm]
    show String.mk (("SELECT * FROM ").data ++ pyStrip tbl ++
      ((" WHERE ").data ++ pyStrip (group2Of (cond ++ [';'])))) = _
    rw [hg2', hstr_tbl, hstr_cond]
    exact congrArg String.mk (by simp [List.append_assoc])

/-- Witness for C8: the spec's own end-to-end example, with and without a
trailing semicolon. -/
theorem update_preview_transform_w :
    convert_update_to_select ("UPDATE users SET name='x' WHERE id=1") =
      "SELECT * FROM users WHERE id=1" ∧
    convert_update_to_select ("UPDATE users SET name='x' WHERE id=1;") =
      "SELECT * FROM users WHERE id=1" := by
  have h := update_preview_transform (("users").data) (("SET name='x'").data)
    (("id=1").data) 'u' 'i' '1' (("sers").data) (("d=1").data)
    (by decide) (by decide) (by decide) (by decide) (by decide) (by decide)
    (by decide) (by decide)
  exact ⟨h.1, h.2⟩

/-- Witness for C7 (amended) at concrete inputs in mixed case and with
leading whitespace. -/
theorem denylist_rejection_w :
    validate_query ("  DROP   DATABASE prod") = (false, some msgDropDb) ∧
    validate_query ("truncate users") = (false, some msgTruncate) := by
  refine ⟨(denylist_rejection ("  DROP   DATABASE prod")).1 (by decide),
    (denylist_rejection ("truncate users")).2.1 (by decide) (by decide)⟩

end TextToSql
